import Mathlib

/-!
Verification of the vs-deploy local transport plugin (src/plugins/local.ts)
and the deployment contracts (contracts.ts) against its specification.

The embedding models:
* the Node.js posix path primitives used by the plugin (isAbsolute, join,
  normalize, dirname), translated from the Node.js path module semantics;
* the target data model and option bags from contracts.ts;
* LocalPlugin.deployFile and LocalPlugin.deployWorkspace as trace-producing
  functions over an environment that fixes the outcome of every external
  call (cancellation flag, path-mapping result, filesystem results,
  user-callback behaviour);
* the data-transform contract from contracts.ts.

Helper functions from helpers.ts and the base class from objects.ts are not
part of the provided sources; where a claim depends on them they are
modelled from the spec and marked as such in their doc comments.
-/

/-- Splits a list of characters on a separator character, keeping empty
segments, mirroring how the Node.js path code walks separator positions. -/
def splitOnChar (sep : Char) : List Char → List (List Char)
  | [] => [[]]
  | c :: rest =>
    let r := splitOnChar sep rest
    if c = sep then [] :: r
    else
      match r with
      | [] => [[c]]
      | s :: ss => (c :: s) :: ss

/-- Node.js path.posix.isAbsolute: a path is absolute iff it is nonempty and
starts with a forward slash. -/
def isAbsolute (s : String) : Bool :=
  match s.toList with
  | [] => false
  | c :: _ => c = '/'

/-- Whether a path string ends with a forward slash. -/
def hasTrailingSep (s : String) : Bool :=
  match s.toList.getLast? with
  | some c => c = '/'
  | none => false

/-- Core of Node.js normalizeString: resolves "." and ".." segments, with
".." allowed to accumulate above the root only for relative paths. The
accumulator holds the resolved segments in reverse order. -/
def normSegsRev (allowAbove : Bool) : List String → List String → List String
  | acc, [] => acc
  | acc, seg :: rest =>
    if seg = "" ∨ seg = "." then normSegsRev allowAbove acc rest
    else if seg = ".." then
      match acc with
      | last :: accRest =>
        if last = ".." then
          if allowAbove then normSegsRev allowAbove (".." :: last :: accRest) rest
          else normSegsRev allowAbove (last :: accRest) rest
        else normSegsRev allowAbove accRest rest
      | [] =>
        if allowAbove then normSegsRev allowAbove [".."] rest
        else normSegsRev allowAbove [] rest
    else normSegsRev allowAbove (seg :: acc) rest

/-- Resolved path segments of a path string, in order. -/
def normSegs (allowAbove : Bool) (segs : List String) : List String :=
  (normSegsRev allowAbove [] segs).reverse

/-- Joins path segments with single forward slashes. -/
def joinSegs : List String → String
  | [] => ""
  | [s] => s
  | s :: rest => s ++ "/" ++ joinSegs rest

/-- Node.js path.posix.normalize: resolves "." and ".." segments and
collapses repeated separators, preserving a trailing separator. -/
def pathNormalize (s : String) : String :=
  if s = "" then "."
  else
    let isAbs := isAbsolute s
    let trail := hasTrailingSep s
    let segs := normSegs (!isAbs) ((splitOnChar '/' s.toList).map (fun l => String.mk l))
    let body := joinSegs segs
    if body = "" then
      if isAbs then "/" else if trail then "./" else "."
    else
      let body := if trail then body ++ "/" else body
      if isAbs then "/" ++ body else body

/-- Node.js path.posix.join on two arguments: concatenates the nonempty
arguments with a separator and normalizes; "." when both are empty. -/
def pathJoin (a b : String) : String :=
  if a = "" then
    if b = "" then "." else pathNormalize b
  else
    if b = "" then pathNormalize a
    else pathNormalize (a ++ "/" ++ b)

/-- Scans character positions from the end of the path (indices at least 1,
in reverse order) for the separator that ends the directory part, skipping
trailing separators, as the Node.js dirname loop does. -/
def dirnameEndAux : List (Nat × Char) → Bool → Option Nat
  | [], _ => none
  | (i, c) :: rest, matchedSlash =>
    if c = '/' then
      if matchedSlash then dirnameEndAux rest true else some i
    else dirnameEndAux rest false

/-- Node.js path.posix.dirname. -/
def pathDirname (s : String) : String :=
  if s = "" then "."
  else
    let hasRoot := isAbsolute s
    let cs := s.toList
    match dirnameEndAux ((cs.enum.filter (fun p => 1 ≤ p.1)).reverse) true with
    | none => if hasRoot then "/" else "."
    | some e => if hasRoot ∧ e = 1 then "//" else String.mk (cs.take e)

/-- Modelled from the spec: deploy_helpers.toStringSafe (helpers.ts is absent
from the provided sources). Coerces a possibly-missing string to a string,
yielding the empty string when the value is absent. -/
def toStringSafe (s : Option String) : String := s.getD ""

/-- Modelled from the spec: deploy_helpers.toBooleanSafe (helpers.ts is
absent from the provided sources). Coerces a possibly-missing boolean to a
boolean, yielding the given default when the value is absent. -/
def toBooleanSafe (b : Option Bool) (defaultValue : Bool) : Bool :=
  b.getD defaultValue

/-- DeployTargetLocal from local.ts: a DeployTarget (contracts.ts) extended
with the optional dir and empty fields of the local plugin. Fields not read
by the local plugin are omitted from the model except name and sortOrder. -/
structure DeployTargetLocal where
  name : Option String := none
  sortOrder : Int := 0
  dir : Option String := none
  empty : Option Bool := none
deriving DecidableEq, Repr

/-- getFullDirPathFromTarget from local.ts: the target root directory is
target.dir coerced to a string, defaulting to "./" when empty, and joined
under the workspace root path when not absolute. The vscode workspace root
path is passed explicitly as ws. -/
def getFullDirPathFromTarget (ws : String) (target : DeployTargetLocal) : String :=
  let dir := toStringSafe target.dir
  let dir := if dir = "" then "./" else dir
  if isAbsolute dir then dir else pathJoin ws dir

/-- DeployFileOptions from contracts.ts, together with the baseDirectory
field read by local.ts. The two callback hooks are modelled by whether they
are supplied. -/
structure DeployFileOptions where
  onBeforeDeploy : Bool := false
  onCompleted : Bool := false
  baseDirectory : Option String := none
deriving DecidableEq, Repr

/-- Outcomes of the external calls a single deployFile run makes: the
cancellation flag of the deploy context, the result of the path-mapping
helper deploy_helpers.toRelativeTargetPath (helpers.ts is absent from the
provided sources, so its result is an environment outcome: none models the
false return), the FS.exists answer, the FSExtra.mkdirs error, whether a
supplied onBeforeDeploy callback throws, whether the FSExtra.copy call
throws synchronously, and the error the copy callback reports. -/
structure FileEnv where
  isCancelling : Bool
  relResult : Option String
  dirExists : Bool
  mkdirsErr : Option String
  beforeDeployThrows : Option String
  copyCallThrows : Option String
  copyErr : Option String
deriving DecidableEq, Repr

/-- Observable events of one deployFile run, in order. -/
inductive FileEvent where
  | onCompleted (error : Option String) (canceled : Bool)
  | onBeforeDeploy (destination : String)
  | existsCheck (dir : String)
  | mkdirs (dir : String)
  | copy (src : String) (dst : String)
deriving DecidableEq, Repr

/-- LocalPlugin.deployFile from local.ts as a trace of observable events.
Mirrors the source control flow: normalize an omitted opts to an empty
object, compute the target root, check cancellation, resolve the relative
path, check the target directory, create it if missing, invoke
onBeforeDeploy inside a try block, copy, and report through the local
completed closure, which invokes opts.onCompleted only when supplied. -/
def deployFileTrace (ws file : String) (target : DeployTargetLocal)
    (opts? : Option DeployFileOptions) (env : FileEnv) : List FileEvent :=
  let opts := opts?.getD {}
  let dir := getFullDirPathFromTarget ws target
  let completed := fun (err : Option String) (canceled : Bool) =>
    if opts.onCompleted then [FileEvent.onCompleted err canceled] else []
  if env.isCancelling then completed none true
  else
    match env.relResult with
    | none =>
      completed (some ("Could not get relative path for " ++ file ++ "!")) false
    | some rel =>
      let targetFile := pathJoin dir rel
      let targetDirectory := pathDirname targetFile
      let doDeploy : List FileEvent :=
        let beforeEvts :=
          if opts.onBeforeDeploy then [FileEvent.onBeforeDeploy targetDirectory] else []
        match (if opts.onBeforeDeploy then env.beforeDeployThrows else none) with
        | some e => beforeEvts ++ completed (some e) false
        | none =>
          match env.copyCallThrows with
          | some e => beforeEvts ++ completed (some e) false
          | none =>
            beforeEvts ++ FileEvent.copy file targetFile ::
              (match env.copyErr with
               | some e => completed (some e) false
               | none => completed none false)
      FileEvent.existsCheck targetDirectory ::
        (if env.dirExists then doDeploy
         else FileEvent.mkdirs targetDirectory ::
           (match env.mkdirsErr with
            | some e => completed (some e) false
            | none => doDeploy))

/-- Number of onCompleted events in a deployFile trace. -/
def completedCount (tr : List FileEvent) : Nat :=
  (tr.filter fun e =>
    match e with
    | FileEvent.onCompleted _ _ => true
    | _ => false).length

/-- DeployWorkspaceOptions from contracts.ts, callbacks modelled by whether
they are supplied. -/
structure DeployWorkspaceOptions where
  onBeforeDeployFile : Bool := false
  onFileCompleted : Bool := false
  onCompleted : Bool := false
deriving DecidableEq, Repr

/-- Outcomes of the external calls a deployWorkspace run makes before
delegating: the cancellation flag and the FSExtra.emptyDir error. -/
structure WsEnv where
  isCancelling : Bool
  emptyDirErr : Option String
deriving DecidableEq, Repr

/-- Observable events of one deployWorkspace run. The per-file pipeline run
by the base class is abstracted into the single delegated event. -/
inductive WsEvent where
  | output (msg : String)
  | emptyDir (dir : String)
  | onCompleted (error : Option String) (canceled : Bool)
  | delegated (files : List String)
deriving DecidableEq, Repr

/-- The JavaScript TypeError raised when a property is read off undefined. -/
def undefinedOptsError : String :=
  "TypeError: cannot read property of undefined"

/-- The completed closure of LocalPlugin.deployWorkspace: it reads
opts.onCompleted without a guard on opts itself, so an omitted opts makes
the property read throw a TypeError. -/
def wsCompleted (opts? : Option DeployWorkspaceOptions) (err : Option String)
    (canceled : Bool) : Except String (List WsEvent) :=
  match opts? with
  | none => Except.error undefinedOptsError
  | some o =>
    Except.ok (if o.onCompleted then [WsEvent.onCompleted err canceled] else [])

/-- The call to DeployPluginBase.deployWorkspace made by startDeploying in
local.ts. The base implementation lives in objects.ts, which is absent from
the provided sources, so the handoff is abstracted into the single
delegated event: the model records that control passed to the base
implementation (with whatever opts value the caller held, defined or not)
and stays agnostic about everything the base does internally. What is
faithful to local.ts is that the local completed closure is not on this
path. -/
def baseDeployWorkspace (files : List String) (_target : DeployTargetLocal)
    (_opts? : Option DeployWorkspaceOptions) : Except String (List WsEvent) :=
  Except.ok [WsEvent.delegated files]

/-- The destination root directory computed inline by deployWorkspace in
local.ts: target.dir coerced to a string (no default) and joined under the
workspace root path when not absolute. -/
def workspaceTargetDir (ws : String) (target : DeployTargetLocal) : String :=
  let targetDir := toStringSafe target.dir
  if isAbsolute targetDir then targetDir else pathJoin ws targetDir

/-- LocalPlugin.deployWorkspace from local.ts as a trace of observable
events, or the JavaScript error it throws. Mirrors the source control flow:
compute the inline target directory, check cancellation, and when
target.empty coerces to true, announce and empty the target directory
before delegating to the base implementation; an emptyDir failure reports
through the local completed closure and delegation never starts. -/
def deployWorkspaceTrace (ws : String) (files : List String)
    (target : DeployTargetLocal) (opts? : Option DeployWorkspaceOptions)
    (env : WsEnv) : Except String (List WsEvent) :=
  let targetDir := workspaceTargetDir ws target
  if env.isCancelling then wsCompleted opts? none true
  else
    if toBooleanSafe target.empty false then do
      let rest ←
        match env.emptyDirErr with
        | some e => do
          let c ← wsCompleted opts? (some e) false
          pure (WsEvent.output ("[FAILED: " ++ e ++ "]") :: c)
        | none => do
          let d ← baseDeployWorkspace files target opts?
          pure (WsEvent.output "[OK]" :: d)
      pure (WsEvent.output ("Empty LOCAL target directory " ++ targetDir ++ "... ") ::
        WsEvent.emptyDir targetDir :: rest)
    else baseDeployWorkspace files target opts?

/-- A byte buffer, as a list of byte values. -/
abbrev Buffer := List Nat

/-- DataTransformerMode from contracts.ts. -/
inductive DataTransformerMode where
  | Restore
  | Transform
deriving DecidableEq, Repr

/-- DataTransformerContext from contracts.ts: the data to transform, the
mode, and free-form options (modelled as an optional string). -/
structure DataTransformerContext where
  data : Buffer
  mode : DataTransformerMode
  options : Option String := none

/-- DataTransformer from contracts.ts, with the promise layer elided. -/
abbrev DataTransformer := DataTransformerContext → Buffer

/-- DataTransformModule from contracts.ts: optional restoreData and
transformData functions. -/
structure DataTransformModule where
  restoreData : Option DataTransformer := none
  transformData : Option DataTransformer := none

/-- Modelled from the spec: the transform pipeline (its loading code in
helpers.ts is absent from the provided sources). With no module configured
the pipeline is the identity; a module missing the requested direction is a
TransformError; otherwise the direction function is applied to the context
built from the buffer, the mode, and the options. -/
def applyTransform (m? : Option DataTransformModule) (mode : DataTransformerMode)
    (b : Buffer) (opts : Option String) : Except String Buffer :=
  match m? with
  | none => Except.ok b
  | some m =>
    match mode with
    | DataTransformerMode.Transform =>
      match m.transformData with
      | none => Except.error "TransformError: transformData missing"
      | some f =>
        Except.ok (f { data := b, mode := DataTransformerMode.Transform, options := opts })
    | DataTransformerMode.Restore =>
      match m.restoreData with
      | none => Except.error "TransformError: restoreData missing"
      | some f =>
        Except.ok (f { data := b, mode := DataTransformerMode.Restore, options := opts })

/-- Modelled from the spec: the round-trip law of the DataTransformModule
contract — restoreData applied to the output of transformData on the same
options must reconstruct the original buffer. -/
def SatisfiesRoundTrip (m : DataTransformModule) : Prop :=
  ∀ (b : Buffer) (opts : Option String) (tf rf : DataTransformer),
    m.transformData = some tf → m.restoreData = some rf →
    rf { data := tf { data := b, mode := DataTransformerMode.Transform, options := opts },
         mode := DataTransformerMode.Restore, options := opts } = b

/-- A concrete transform module: byte-order reversal in both directions. -/
def reverseTransformer : DataTransformer := fun ctx => ctx.data.reverse

/-- The reversal module, a module satisfying the round-trip contract. -/
def reverseModule : DataTransformModule :=
  { restoreData := some reverseTransformer, transformData := some reverseTransformer }

lemma reverseModule_satisfies : SatisfiesRoundTrip reverseModule := by
  intro b opts tf rf htf hrf
  simp only [reverseModule, Option.some.injEq] at htf hrf
  subst htf hrf
  simp [reverseTransformer]

/-- Conformance of the path model to Node.js path.posix behaviour on the
cases the claims depend on, notably that join preserves the trailing
separator contributed by a "./" argument. -/
lemma pathModel_conformance :
    pathJoin "/tmp/dest" "readme.md" = "/tmp/dest/readme.md" ∧
    pathJoin "/ws" "./" = "/ws/" ∧
    pathJoin "/ws" "" = "/ws" ∧
    pathJoin "" "" = "." ∧
    pathJoin "" "./" = "./" ∧
    pathJoin "/a//b" "./c/.." = "/a/b" ∧
    pathNormalize "/a/b/" = "/a/b/" ∧
    pathNormalize "a/../../b" = "../b" ∧
    pathNormalize "/a/../../b" = "/b" ∧
    pathDirname "/a/b/c" = "/a/b" ∧
    pathDirname "/a" = "/" ∧
    pathDirname "a/b/" = "a" ∧
    pathDirname "//a" = "//" ∧
    pathDirname "abc" = "." := by
  repeat constructor

lemma isAbsolute_dotSlash : isAbsolute "./" = false := by decide

/-- C2: if the deploy context reports cancellation when deployFile is
entered, the run performs no filesystem operation (no existence check, no
directory creation, no copy), does not call onBeforeDeploy, and invokes
onCompleted exactly once with canceled set and no error before returning. -/
theorem deployFile_cancel_short_circuit (ws file : String)
    (target : DeployTargetLocal) (opts? : Option DeployFileOptions) (env : FileEnv)
    (hc : env.isCancelling = true) (ho : (opts?.getD {}).onCompleted = true) :
    deployFileTrace ws file target opts? env = [FileEvent.onCompleted none true] := by
  simp [deployFileTrace, hc, ho]

/-- Witness for deployFile_cancel_short_circuit at a concrete input. -/
theorem deployFile_cancel_short_circuit_witness :
    ({ isCancelling := true, relResult := some "a.txt", dirExists := true,
       mkdirsErr := none, beforeDeployThrows := none, copyCallThrows := none,
       copyErr := none } : FileEnv).isCancelling = true ∧
    ((some { onCompleted := true } : Option DeployFileOptions).getD {}).onCompleted = true ∧
    deployFileTrace "/ws" "/ws/a.txt" { dir := some "/out" }
      (some { onCompleted := true })
      { isCancelling := true, relResult := some "a.txt", dirExists := true,
        mkdirsErr := none, beforeDeployThrows := none, copyCallThrows := none,
        copyErr := none } = [FileEvent.onCompleted none true] :=
  ⟨by decide, by decide,
   deployFile_cancel_short_circuit "/ws" "/ws/a.txt" { dir := some "/out" }
     (some { onCompleted := true }) _ (by decide) (by decide)⟩

/-- C4: if the path-mapping helper reports failure (returns false), the run
invokes onCompleted exactly once with an error, performs no directory
creation and no copy, does not call onBeforeDeploy, and returns normally
(the trace function is total, so nothing is raised past the call). -/
theorem deployFile_mapping_failure (ws file : String)
    (target : DeployTargetLocal) (opts? : Option DeployFileOptions) (env : FileEnv)
    (hc : env.isCancelling = false) (hr : env.relResult = none)
    (ho : (opts?.getD {}).onCompleted = true) :
    deployFileTrace ws file target opts? env =
      [FileEvent.onCompleted
        (some ("Could not get relative path for " ++ file ++ "!")) false] := by
  simp [deployFileTrace, hc, hr, ho]

/-- Witness for deployFile_mapping_failure at a concrete input. -/
theorem deployFile_mapping_failure_witness :
    ({ isCancelling := false, relResult := none, dirExists := true,
       mkdirsErr := none, beforeDeployThrows := none, copyCallThrows := none,
       copyErr := none } : FileEnv).isCancelling = false ∧
    ({ isCancelling := false, relResult := none, dirExists := true,
       mkdirsErr := none, beforeDeployThrows := none, copyCallThrows := none,
       copyErr := none } : FileEnv).relResult = none ∧
    deployFileTrace "/ws" "/other/a.txt" { dir := some "/out" }
      (some { onBeforeDeploy := true, onCompleted := true })
      { isCancelling := false, relResult := none, dirExists := true,
        mkdirsErr := none, beforeDeployThrows := none, copyCallThrows := none,
        copyErr := none } =
      [FileEvent.onCompleted
        (some ("Could not get relative path for " ++ "/other/a.txt" ++ "!")) false] :=
  ⟨by decide, by decide,
   deployFile_mapping_failure "/ws" "/other/a.txt" { dir := some "/out" }
     (some { onBeforeDeploy := true, onCompleted := true }) _
     (by decide) (by decide) (by decide)⟩

/-- C7: if the deploy context reports cancellation when deployWorkspace is
entered, the workspace onCompleted fires once with canceled set, no
directory is emptied and no per-file deployment is delegated. -/
theorem deployWorkspace_cancel_short_circuit (ws : String) (files : List String)
    (target : DeployTargetLocal) (o : DeployWorkspaceOptions) (env : WsEnv)
    (hc : env.isCancelling = true) (ho : o.onCompleted = true) :
    deployWorkspaceTrace ws files target (some o) env =
      Except.ok [WsEvent.onCompleted none true] := by
  simp [deployWorkspaceTrace, wsCompleted, hc, ho]

/-- Witness for deployWorkspace_cancel_short_circuit at a concrete input. -/
theorem deployWorkspace_cancel_short_circuit_witness :
    ({ isCancelling := true, emptyDirErr := none } : WsEnv).isCancelling = true ∧
    ({ onCompleted := true } : DeployWorkspaceOptions).onCompleted = true ∧
    deployWorkspaceTrace "/ws" ["/ws/a.txt"] { dir := some "/out", empty := some true }
      (some { onCompleted := true }) { isCancelling := true, emptyDirErr := none } =
      Except.ok [WsEvent.onCompleted none true] :=
  ⟨by decide, by decide,
   deployWorkspace_cancel_short_circuit "/ws" ["/ws/a.txt"]
     { dir := some "/out", empty := some true } { onCompleted := true } _
     (by decide) (by decide)⟩

/-- C9 counterexample: the claim asserts that with opts omitted the
internal completed closure of deployWorkspace dereferences opts.onCompleted
and throws on the delegation path as well; but on that path (no
cancellation, target.empty falsy) the source only calls startDeploying,
which hands control to the base implementation, and the internal completed
closure never runs — the concrete run below is the delegation handoff, not
a throw. -/
theorem deployWorkspace_undefined_opts_counterexample :
    deployWorkspaceTrace "/ws" ["/ws/a.txt"] { dir := some "/out" } none
      { isCancelling := false, emptyDirErr := none } =
      Except.ok [WsEvent.delegated ["/ws/a.txt"]] ∧
    deployWorkspaceTrace "/ws" ["/ws/a.txt"] { dir := some "/out" } none
      { isCancelling := false, emptyDirErr := none } ≠
      Except.error undefinedOptsError := by
  have h1 : deployWorkspaceTrace "/ws" ["/ws/a.txt"] { dir := some "/out" } none
      { isCancelling := false, emptyDirErr := none } =
      Except.ok [WsEvent.delegated ["/ws/a.txt"]] := rfl
  refine ⟨h1, ?_⟩
  rw [h1]
  intro h
  exact Except.noConfusion h

/-- C9 (amended): with opts omitted, the completion paths handled by
deployWorkspace itself — cancellation at entry and empty-directory
failure — make the internal completed closure dereference opts.onCompleted
on undefined and throw a TypeError to the caller instead of signaling
completion; on the remaining paths the internal completed closure never
runs and control is handed to the base implementation (whose own behavior
lives in objects.ts, outside the provided sources); deployFile, by
contrast, defaults an omitted opts to an empty object, so its run is
identical to a run with an empty options object and never dereferences
undefined. -/
theorem deployWorkspace_undefined_opts_local_paths :
    (∀ (ws : String) (files : List String) (target : DeployTargetLocal) (env : WsEnv),
      env.isCancelling = true →
        deployWorkspaceTrace ws files target none env =
          Except.error undefinedOptsError) ∧
    (∀ (ws : String) (files : List String) (target : DeployTargetLocal)
        (env : WsEnv) (e : String),
      env.isCancelling = false → toBooleanSafe target.empty false = true →
      env.emptyDirErr = some e →
        deployWorkspaceTrace ws files target none env =
          Except.error undefinedOptsError) ∧
    (∀ (ws : String) (files : List String) (target : DeployTargetLocal) (env : WsEnv),
      env.isCancelling = false → toBooleanSafe target.empty false = false →
        deployWorkspaceTrace ws files target none env =
          Except.ok [WsEvent.delegated files]) ∧
    (∀ (ws : String) (files : List String) (target : DeployTargetLocal) (env : WsEnv),
      env.isCancelling = false → toBooleanSafe target.empty false = true →
      env.emptyDirErr = none →
        deployWorkspaceTrace ws files target none env =
          Except.ok
            [WsEvent.output
               ("Empty LOCAL target directory " ++ workspaceTargetDir ws target ++ "... "),
             WsEvent.emptyDir (workspaceTargetDir ws target),
             WsEvent.output "[OK]",
             WsEvent.delegated files]) ∧
    (∀ (ws file : String) (target : DeployTargetLocal) (env : FileEnv),
      deployFileTrace ws file target none env =
        deployFileTrace ws file target (some {}) env) := by
  refine ⟨?_, ?_, ?_, ?_, ?_⟩
  · intro ws files target env hc
    simp [deployWorkspaceTrace, wsCompleted, hc]
  · intro ws files target env e hc hb he
    simp [deployWorkspaceTrace, wsCompleted, hc, hb, he]
  · intro ws files target env hc hb
    simp [deployWorkspaceTrace, baseDeployWorkspace, hc, hb]
  · intro ws files target env hc hb he
    simp [deployWorkspaceTrace, baseDeployWorkspace, hc, hb, he]
  · intro ws file target env
    rfl

/-- Witness for deployWorkspace_undefined_opts_local_paths at concrete
inputs: the cancellation-at-entry path throws and the empty-directory
failure path throws. -/
theorem deployWorkspace_undefined_opts_local_paths_witness :
    ({ isCancelling := true, emptyDirErr := none } : WsEnv).isCancelling = true ∧
    deployWorkspaceTrace "/ws" ["/ws/a.txt"] { dir := some "/out" } none
      { isCancelling := true, emptyDirErr := none } =
      Except.error undefinedOptsError ∧
    deployWorkspaceTrace "/ws" ["/ws/a.txt"] { dir := some "/out", empty := some true }
      none { isCancelling := false, emptyDirErr := some "EACCES" } =
      Except.error undefinedOptsError :=
  ⟨by decide,
   deployWorkspace_undefined_opts_local_paths.1 "/ws" ["/ws/a.txt"]
     { dir := some "/out" } { isCancelling := true, emptyDirErr := none } (by decide),
   deployWorkspace_undefined_opts_local_paths.2.1 "/ws" ["/ws/a.txt"]
     { dir := some "/out", empty := some true }
     { isCancelling := false, emptyDirErr := some "EACCES" } "EACCES"
     (by decide) (by decide) (by decide)⟩

/-- C10 counterexample: with an absent target.dir and workspace root /ws,
the inline root computed by deployWorkspace is /ws while
getFullDirPathFromTarget yields /ws/ (the joined "./" default keeps a
trailing separator), so the two computations are not equal. -/
theorem workspaceDir_vs_fileDir_counterexample :
    workspaceTargetDir "/ws" {} ≠ getFullDirPathFromTarget "/ws" {} := by decide

/-- C10 (amended): whenever target.dir coerces to a nonempty string, the
destination root computed inline by deployWorkspace equals the one computed
by getFullDirPathFromTarget; they differ only for an absent or empty dir,
where the missing "./" default drops a trailing separator. -/
theorem workspaceDir_eq_fileDir_of_dir_nonempty (ws : String)
    (target : DeployTargetLocal) (hd : toStringSafe target.dir ≠ "") :
    workspaceTargetDir ws target = getFullDirPathFromTarget ws target := by
  simp [workspaceTargetDir, getFullDirPathFromTarget, hd]

/-- Witness for workspaceDir_eq_fileDir_of_dir_nonempty at a concrete
input. -/
theorem workspaceDir_eq_fileDir_witness :
    toStringSafe (some "out") ≠ "" ∧
    workspaceTargetDir "/ws" { dir := some "out" } =
      getFullDirPathFromTarget "/ws" { dir := some "out" } :=
  ⟨by decide,
   workspaceDir_eq_fileDir_of_dir_nonempty "/ws" { dir := some "out" } (by decide)⟩

/-- C1: with an onCompleted callback supplied, every deployFile run — over
every cancellation outcome, mapping outcome, directory state, directory
creation outcome, callback exception and copy outcome — invokes the
callback exactly once. -/
theorem deployFile_onCompleted_exactly_once (ws file : String)
    (target : DeployTargetLocal) (opts? : Option DeployFileOptions) (env : FileEnv)
    (ho : (opts?.getD {}).onCompleted = true) :
    completedCount (deployFileTrace ws file target opts? env) = 1 := by
  obtain ⟨c, r, de, me, bt, ct, ce⟩ := env
  cases c <;> rcases r with _ | rel <;> cases de <;>
    rcases me with _ | e1 <;> rcases bt with _ | e2 <;>
    rcases ct with _ | e3 <;> rcases ce with _ | e4 <;>
    cases hob : (opts?.getD {}).onBeforeDeploy <;>
      simp [deployFileTrace, completedCount, ho, hob, List.filter]

/-- Witness for deployFile_onCompleted_exactly_once at a concrete input. -/
theorem deployFile_onCompleted_exactly_once_witness :
    ((some { onBeforeDeploy := true, onCompleted := true } :
        Option DeployFileOptions).getD {}).onCompleted = true ∧
    completedCount (deployFileTrace "/ws" "/ws/a.txt" { dir := some "/out" }
      (some { onBeforeDeploy := true, onCompleted := true })
      { isCancelling := false, relResult := some "a.txt", dirExists := false,
        mkdirsErr := none, beforeDeployThrows := none, copyCallThrows := none,
        copyErr := none }) = 1 :=
  ⟨by decide,
   deployFile_onCompleted_exactly_once "/ws" "/ws/a.txt" { dir := some "/out" }
     (some { onBeforeDeploy := true, onCompleted := true })
     { isCancelling := false, relResult := some "a.txt", dirExists := false,
       mkdirsErr := none, beforeDeployThrows := none, copyCallThrows := none,
       copyErr := none } (by decide)⟩

/-- C5: in a run that is neither canceled nor mapping-failed, the trace is
fully determined: a directory-creation failure ends the run with the
existence check, the creation attempt and the error completion — no
onBeforeDeploy and no copy; otherwise the directory is ensured (existence
check, plus creation when absent) strictly before onBeforeDeploy, which is
invoked strictly before the copy, and the single terminal onCompleted
carries the copy outcome (the exception of onBeforeDeploy or of the copy
call, the copy-callback error, or success). -/
theorem deployFile_step_ordering (ws file : String) (target : DeployTargetLocal)
    (opts? : Option DeployFileOptions) (env : FileEnv) (rel : String)
    (hc : env.isCancelling = false) (hr : env.relResult = some rel)
    (hb : (opts?.getD {}).onBeforeDeploy = true)
    (ho : (opts?.getD {}).onCompleted = true) :
    (env.dirExists = false → ∀ e, env.mkdirsErr = some e →
      deployFileTrace ws file target opts? env =
        [FileEvent.existsCheck
           (pathDirname (pathJoin (getFullDirPathFromTarget ws target) rel)),
         FileEvent.mkdirs
           (pathDirname (pathJoin (getFullDirPathFromTarget ws target) rel)),
         FileEvent.onCompleted (some e) false]) ∧
    ((env.dirExists = true ∨ env.mkdirsErr = none) →
      deployFileTrace ws file target opts? env =
        FileEvent.existsCheck
            (pathDirname (pathJoin (getFullDirPathFromTarget ws target) rel)) ::
          (if env.dirExists then []
           else [FileEvent.mkdirs
             (pathDirname (pathJoin (getFullDirPathFromTarget ws target) rel))]) ++
          FileEvent.onBeforeDeploy
              (pathDirname (pathJoin (getFullDirPathFromTarget ws target) rel)) ::
            (match env.beforeDeployThrows with
             | some e => [FileEvent.onCompleted (some e) false]
             | none =>
               match env.copyCallThrows with
               | some e => [FileEvent.onCompleted (some e) false]
               | none =>
                 FileEvent.copy file (pathJoin (getFullDirPathFromTarget ws target) rel) ::
                   [FileEvent.onCompleted env.copyErr false])) := by
  obtain ⟨c, r, de, me, bt, ct, ce⟩ := env
  simp only at hc hr
  subst hc hr
  constructor
  · intro hde e he
    simp only at hde he
    subst hde he
    simp [deployFileTrace, hb, ho]
  · intro h
    rcases bt with _ | e2 <;> rcases ct with _ | e3 <;> cases de <;>
      rcases me with _ | e1 <;> rcases ce with _ | e4 <;>
        simp_all [deployFileTrace, hb, ho]

/-- Witness for deployFile_step_ordering at a concrete input, taking the
branch where the destination directory is missing and gets created. -/
theorem deployFile_step_ordering_witness :
    deployFileTrace "/ws" "/ws/a.txt" { dir := some "/out" }
      (some { onBeforeDeploy := true, onCompleted := true })
      { isCancelling := false, relResult := some "a.txt", dirExists := false,
        mkdirsErr := none, beforeDeployThrows := none, copyCallThrows := none,
        copyErr := none } =
      FileEvent.existsCheck
          (pathDirname (pathJoin (getFullDirPathFromTarget "/ws" { dir := some "/out" }) "a.txt")) ::
        (if ({ isCancelling := false, relResult := some "a.txt", dirExists := false,
               mkdirsErr := none, beforeDeployThrows := none, copyCallThrows := none,
               copyErr := none } : FileEnv).dirExists then []
         else [FileEvent.mkdirs
           (pathDirname (pathJoin (getFullDirPathFromTarget "/ws" { dir := some "/out" }) "a.txt"))]) ++
        FileEvent.onBeforeDeploy
            (pathDirname (pathJoin (getFullDirPathFromTarget "/ws" { dir := some "/out" }) "a.txt")) ::
          FileEvent.copy "/ws/a.txt"
              (pathJoin (getFullDirPathFromTarget "/ws" { dir := some "/out" }) "a.txt") ::
            [FileEvent.onCompleted none false] :=
  (deployFile_step_ordering "/ws" "/ws/a.txt" { dir := some "/out" }
    (some { onBeforeDeploy := true, onCompleted := true })
    { isCancelling := false, relResult := some "a.txt", dirExists := false,
      mkdirsErr := none, beforeDeployThrows := none, copyCallThrows := none,
      copyErr := none } "a.txt" (by decide) (by decide) (by decide) (by decide)).2
    (Or.inr (by decide))

/-- C6: whenever a deployFile run copies, the destination equals the target
root directory joined with the relative path from the path mapper, where the
root directory is target.dir, defaulting to ./ when absent or empty, and is
joined under the workspace root when it is not absolute. -/
theorem deployFile_destination_path (ws file : String) (target : DeployTargetLocal)
    (opts? : Option DeployFileOptions) (env : FileEnv) (rel dst : String)
    (hr : env.relResult = some rel)
    (hcopy : FileEvent.copy file dst ∈ deployFileTrace ws file target opts? env) :
    dst = pathJoin (getFullDirPathFromTarget ws target) rel ∧
    getFullDirPathFromTarget ws target =
      (if toStringSafe target.dir = "" then pathJoin ws "./"
       else if isAbsolute (toStringSafe target.dir) then toStringSafe target.dir
       else pathJoin ws (toStringSafe target.dir)) := by
  constructor
  · obtain ⟨c, r, de, me, bt, ct, ce⟩ := env
    simp only at hr
    subst hr
    cases c <;> cases de <;>
      rcases me with _ | e1 <;> rcases bt with _ | e2 <;>
      rcases ct with _ | e3 <;> rcases ce with _ | e4 <;>
      cases hob : (opts?.getD {}).onBeforeDeploy <;>
      cases hoc : (opts?.getD {}).onCompleted <;>
        simp_all [deployFileTrace, hob, hoc]
  · by_cases hd : toStringSafe target.dir = "" <;>
      simp [getFullDirPathFromTarget, hd, isAbsolute_dotSlash]

/-- Witness for deployFile_destination_path at the concrete fallback example
of the spec: no mappings, absolute target dir /tmp/dest, relative path
readme.md, destination /tmp/dest/readme.md. -/
theorem deployFile_destination_path_witness :
    ({ isCancelling := false, relResult := some "readme.md", dirExists := true,
       mkdirsErr := none, beforeDeployThrows := none, copyCallThrows := none,
       copyErr := none } : FileEnv).relResult = some "readme.md" ∧
    FileEvent.copy "/ws/proj/readme.md" "/tmp/dest/readme.md" ∈
      deployFileTrace "/ws" "/ws/proj/readme.md" { dir := some "/tmp/dest" }
        (some { onCompleted := true })
        { isCancelling := false, relResult := some "readme.md", dirExists := true,
          mkdirsErr := none, beforeDeployThrows := none, copyCallThrows := none,
          copyErr := none } ∧
    "/tmp/dest/readme.md" =
      pathJoin (getFullDirPathFromTarget "/ws" { dir := some "/tmp/dest" }) "readme.md" :=
  ⟨by decide, by decide,
   (deployFile_destination_path "/ws" "/ws/proj/readme.md" { dir := some "/tmp/dest" }
     (some { onCompleted := true })
     { isCancelling := false, relResult := some "readme.md", dirExists := true,
       mkdirsErr := none, beforeDeployThrows := none, copyCallThrows := none,
       copyErr := none } "readme.md" "/tmp/dest/readme.md"
     (by decide) (by decide)).1⟩

/-- C3: with target.empty set and no cancellation, the destination root is
emptied before any per-file deployment is delegated: a failure of the
emptying step ends the run with the workspace onCompleted carrying that
error and no delegation (zero files written), while a success delegates
only after the emptyDir event. -/
theorem deployWorkspace_empty_before_deploy (ws : String) (files : List String)
    (target : DeployTargetLocal) (o : DeployWorkspaceOptions) (env : WsEnv)
    (he : target.empty = some true) (hc : env.isCancelling = false)
    (ho : o.onCompleted = true) :
    (∀ e, env.emptyDirErr = some e →
      deployWorkspaceTrace ws files target (some o) env =
        Except.ok
          [WsEvent.output
             ("Empty LOCAL target directory " ++ workspaceTargetDir ws target ++ "... "),
           WsEvent.emptyDir (workspaceTargetDir ws target),
           WsEvent.output ("[FAILED: " ++ e ++ "]"),
           WsEvent.onCompleted (some e) false]) ∧
    (env.emptyDirErr = none →
      deployWorkspaceTrace ws files target (some o) env =
        Except.ok
          [WsEvent.output
             ("Empty LOCAL target directory " ++ workspaceTargetDir ws target ++ "... "),
           WsEvent.emptyDir (workspaceTargetDir ws target),
           WsEvent.output "[OK]",
           WsEvent.delegated files]) := by
  constructor
  · intro e hee
    simp [deployWorkspaceTrace, wsCompleted, toBooleanSafe, he, hc, ho, hee]
  · intro hee
    simp [deployWorkspaceTrace, wsCompleted, baseDeployWorkspace, toBooleanSafe,
      he, hc, ho, hee]

/-- Witness for deployWorkspace_empty_before_deploy at a concrete input,
taking the branch where emptying the destination fails. -/
theorem deployWorkspace_empty_before_deploy_witness :
    deployWorkspaceTrace "/ws" ["/ws/a.txt"] { dir := some "/out", empty := some true }
      (some { onCompleted := true }) { isCancelling := false, emptyDirErr := some "EACCES" } =
      Except.ok
        [WsEvent.output
           ("Empty LOCAL target directory " ++
             workspaceTargetDir "/ws" { dir := some "/out", empty := some true } ++ "... "),
         WsEvent.emptyDir (workspaceTargetDir "/ws" { dir := some "/out", empty := some true }),
         WsEvent.output ("[FAILED: " ++ "EACCES" ++ "]"),
         WsEvent.onCompleted (some "EACCES") false] :=
  (deployWorkspace_empty_before_deploy "/ws" ["/ws/a.txt"]
    { dir := some "/out", empty := some true } { onCompleted := true }
    { isCancelling := false, emptyDirErr := some "EACCES" }
    (by decide) (by decide) (by decide)).1 "EACCES" (by decide)

/-- C8: for every configured transform module satisfying the round-trip
contract (with both directions supplied) and every buffer, running the
pipeline in Restore mode on the output of the pipeline in Transform mode
with the same options reconstructs the original buffer; with no module
configured the pipeline is the identity and the law holds trivially. -/
theorem transform_restore_round_trip (m? : Option DataTransformModule)
    (hm : ∀ m, m? = some m → SatisfiesRoundTrip m ∧ m.restoreData.isSome)
    (b tb : Buffer) (opts : Option String)
    (ht : applyTransform m? DataTransformerMode.Transform b opts = Except.ok tb) :
    applyTransform m? DataTransformerMode.Restore tb opts = Except.ok b := by
  match m? with
  | none =>
    simp only [applyTransform, Except.ok.injEq] at ht ⊢
    exact ht.symm
  | some m =>
    obtain ⟨hrt, hrs⟩ := hm m rfl
    obtain ⟨rf, hrf⟩ := Option.isSome_iff_exists.mp hrs
    match htf : m.transformData with
    | none => simp [applyTransform, htf] at ht
    | some tf =>
      simp only [applyTransform, htf, Except.ok.injEq] at ht
      simp only [applyTransform, hrf, Except.ok.injEq]
      rw [← ht]
      exact hrt b opts tf rf htf hrf

/-- Witness for transform_restore_round_trip with the concrete reversal
module on a concrete buffer. -/
theorem transform_restore_round_trip_witness :
    applyTransform (some reverseModule) DataTransformerMode.Transform [1, 2, 3] none =
      Except.ok [3, 2, 1] ∧
    applyTransform (some reverseModule) DataTransformerMode.Restore [3, 2, 1] none =
      Except.ok [1, 2, 3] :=
  ⟨rfl,
   transform_restore_round_trip (some reverseModule)
     (fun m hmm => by
       cases hmm
       exact ⟨reverseModule_satisfies, rfl⟩)
     [1, 2, 3] [3, 2, 1] none rfl⟩
